import Mathlib

/-!
# Verification of the public-rpc-router control plane

A shallow embedding of the TypeScript sources of the multi-chain JSON-RPC
router (`src/core/healthChecker.ts`, `src/core/rpcManager.ts`,
`src/services/rpc.service.ts`, `src/utils/responseFormatter.ts`), together
with theorems checking the natural-language specification against it.

Modelling conventions:
* Redis state (the `rpc:health` hash, `rpc:session:*` keys, `rpc:chain:*`
  keys) is modelled as association lists inside a single `Sys` record,
  together with the RpcManager's in-memory collapse window.
* JavaScript numbers that are always non-negative integers in the source
  (timestamps, fail counts, response times, TTLs) are modelled as `Nat`.
* Outbound HTTP is modelled by oracle arguments: a `TransportOutcome` for a
  health probe, a `ForwardOutcome` for a forwarded JSON-RPC call.  axios
  rejects (throws) on any status outside 2xx; that rejection logic is part
  of the embedding.
* `uuidv4()` is modelled by a `freshId` argument; freshness hypotheses
  stand in for the probabilistic uniqueness of UUIDs.
-/

namespace RpcRouter

/-! ## Association-list operations modelling redis hashes / key spaces -/

/-- Lookup in an association list (redis `hGet` / `get` on a keyed record). -/
def alookup {κ α : Type} [DecidableEq κ] : List (κ × α) → κ → Option α
  | [], _ => none
  | (k', v) :: t, k => if k' = k then some v else alookup t k

/-- Set a field of an association list (redis `hSet` / `setEx`): overwrite the
existing binding in place, or append a new binding. -/
def hset {κ α : Type} [DecidableEq κ] : List (κ × α) → κ → α → List (κ × α)
  | [], k, v => [(k, v)]
  | (k', v') :: t, k, v => if k' = k then (k, v) :: t else (k', v') :: hset t k v

@[simp] theorem alookup_nil {κ α : Type} [DecidableEq κ] (k : κ) :
    alookup ([] : List (κ × α)) k = none := rfl

@[simp] theorem alookup_cons {κ α : Type} [DecidableEq κ] (k' k : κ) (v : α) (t : List (κ × α)) :
    alookup ((k', v) :: t) k = if k' = k then some v else alookup t k := rfl

theorem alookup_hset_self {κ α : Type} [DecidableEq κ] (l : List (κ × α)) (k : κ) (v : α) :
    alookup (hset l k v) k = some v := by
  induction l with
  | nil => simp [hset]
  | cons p t ih =>
    obtain ⟨k', v'⟩ := p
    by_cases h : k' = k <;> simp [hset, h, ih]

theorem alookup_hset_ne {κ α : Type} [DecidableEq κ] (l : List (κ × α)) (k k' : κ) (v : α)
    (h : k' ≠ k) : alookup (hset l k v) k' = alookup l k' := by
  induction l with
  | nil => simp [hset, Ne.symm h]
  | cons p t ih =>
    obtain ⟨k₀, v₀⟩ := p
    by_cases h0 : k₀ = k
    · subst h0
      simp [hset, Ne.symm h]
    · simp only [hset, if_neg h0, alookup_cons]
      by_cases h1 : k₀ = k' <;> simp [h1, ih]

theorem hset_of_alookup_none {κ α : Type} [DecidableEq κ] (l : List (κ × α)) (k : κ) (v : α)
    (h : alookup l k = none) : hset l k v = l ++ [(k, v)] := by
  induction l with
  | nil => simp [hset]
  | cons p t ih =>
    obtain ⟨k', v'⟩ := p
    by_cases hk : k' = k
    · simp [hk] at h
    · simp only [alookup_cons, if_neg hk] at h
      simp [hset, hk, ih h]

/-! ## Data model (`src/types/index.ts`) -/

/-- `RpcHealth` (types/index.ts): one health record per URL, stored as a field
of the `rpc:health` hash. -/
structure RpcHealth where
  url : String
  healthy : Bool
  lastCheck : Nat
  responseTime : Nat
  failCount : Nat
deriving DecidableEq, Repr

/-- `RpcConfig` (types/index.ts): a chain configuration entry. -/
structure RpcConfig where
  chainId : Nat
  name : String
  urls : List String
deriving DecidableEq, Repr

/-- `RpcSession` (types/index.ts): a sticky-session record. -/
structure RpcSession where
  id : String
  url : String
  chainId : Nat
  createdAt : Nat
  lastUsed : Nat
  requestCount : Nat
deriving DecidableEq, Repr

/-- `environment.rpc.maxFailCount` default (environment.ts). -/
def maxFailCount : Nat := 3

/-- `environment.redis.sessionTtl` default, seconds (environment.ts). -/
def sessionTtl : Nat := 3600

/-! ## Health checker (`src/core/healthChecker.ts`) -/

/-- The outcome of the outbound `axios.post` transport for a health probe:
either a response arrived (with its HTTP status and whether the decoded body
has a defined `result` field), or the request errored (network failure /
timeout).  axios itself additionally rejects on non-2xx statuses; that logic
is in `checkHealth` below. -/
inductive TransportOutcome where
  | response (status : Nat) (hasResult : Bool)
  | netError
deriving DecidableEq, Repr

/-- `HealthChecker.incrementFailCount` (healthChecker.ts lines 73-89): read the
current record from the `health` hash; if present return `failCount + 1`,
otherwise return `1`. -/
def incrementFailCount (health : List (String × RpcHealth)) (url : String) : Nat :=
  match alookup health url with
  | some h => h.failCount + 1
  | none => 1

/-- The catch branch of `HealthChecker.checkHealth` (healthChecker.ts lines
49-61): axios rejected, so write an unhealthy record with the incremented
fail count. -/
def checkHealthFail (health : List (String × RpcHealth)) (url : String)
    (elapsed now : Nat) : RpcHealth × List (String × RpcHealth) :=
  let h : RpcHealth :=
    { url := url, healthy := false, lastCheck := now, responseTime := elapsed,
      failCount := incrementFailCount health url }
  (h, hset health url h)

/-- `HealthChecker.checkHealth` (healthChecker.ts lines 21-62).  The transport
outcome, elapsed time and current time are oracle inputs.  axios resolves only
for 2xx statuses (default `validateStatus`); in that case the code computes
`isHealthy := status == 200 && response.data?.result !== undefined` and writes
a record with `failCount: 0` (the source comment reads "Reset fail count when
healthy", but the write is unconditional in the try branch).  On an axios
rejection the catch branch writes an unhealthy record with
`incrementFailCount`. -/
def checkHealth (health : List (String × RpcHealth)) (url : String)
    (t : TransportOutcome) (elapsed now : Nat) : RpcHealth × List (String × RpcHealth) :=
  match t with
  | .response status hasResult =>
    if 200 ≤ status ∧ status < 300 then
      let isHealthy := status == 200 && hasResult
      let h : RpcHealth :=
        { url := url, healthy := isHealthy, lastCheck := now, responseTime := elapsed,
          failCount := 0 }
      (h, hset health url h)
    else
      checkHealthFail health url elapsed now
  | .netError => checkHealthFail health url elapsed now

/-! ## Response formatter (`src/utils/responseFormatter.ts`) -/

/-- A JSON value as far as the formatter distinguishes them: a string, or a
non-string primitive (`id`, `jsonrpc` and non-string `result` values are
passed through opaquely). -/
inductive JVal where
  | jstr (s : String)
  | jnum (n : Int)
  | jbool (b : Bool)
  | jnull
  | jundef
deriving DecidableEq, Repr

/-- A decoded JSON-RPC reply object: the three fields the formatter
destructures (`const { id, jsonrpc, result } = response`). -/
structure Reply where
  id : JVal
  jsonrpc : JVal
  result : JVal
deriving DecidableEq, Repr

/-- A JavaScript value in a body position, as far as the router inspects it:
a truthy object (decoded JSON-RPC reply), a truthy non-object primitive, or a
falsy value (`undefined`, `null`, `""`, `0`, ...). -/
inductive JsBody where
  | obj (r : Reply)
  | primTruthy
  | falsy
deriving DecidableEq, Repr

/-- Truthiness of a `JsBody` (JavaScript `if (x)`). -/
def JsBody.truthy : JsBody → Bool
  | .obj _ => true
  | .primTruthy => true
  | .falsy => false

/-- The formatted reply object built by `formatRpcResponse`:
`{ id, jsonrpc, sessionId, result }`. -/
structure FormattedReply where
  id : JVal
  jsonrpc : JVal
  sessionId : String
  result : JVal
deriving DecidableEq, Repr

/-- Result of `formatRpcResponse`: either the formatted reply, or the
`{ error: 'Invalid response format' }` object for a missing / non-object
response. -/
inductive FormatResult where
  | ok (f : FormattedReply)
  | invalidFormat
deriving DecidableEq, Repr

/-- StringToBigInt whitespace (the ASCII whitespace characters JavaScript
trims around a numeric string). -/
def isWS (c : Char) : Bool :=
  c = ' ' || c = '\t' || c = '\n' || c = '\x0d' || c = '\x0b' || c = '\x0c'

/-- Hexadecimal digit test, both cases (the digits `BigInt("0x…")`
accepts). -/
def isHexDigit (c : Char) : Bool :=
  ('0' ≤ c && c ≤ '9') || ('a' ≤ c && c ≤ 'f') || ('A' ≤ c && c ≤ 'F')

/-- Numeric value of a hexadecimal digit. -/
def hexVal (c : Char) : Nat :=
  if '0' ≤ c && c ≤ '9' then c.toNat - 48
  else if 'a' ≤ c && c ≤ 'f' then c.toNat - 87
  else c.toNat - 55

/-- Drop trailing JavaScript whitespace (the `StrWhiteSpace?` suffix of the
`StringIntegerLiteral` grammar used by `BigInt(string)`). -/
def trimTrailingWS : List Char → List Char
  | [] => []
  | c :: cs =>
    match trimTrailingWS cs with
    | [] => if isWS c then [] else [c]
    | r => c :: r

/-- `BigInt("0x" ++ cs)` (JavaScript StringToBigInt) on the characters after
the `0x` prefix: trailing whitespace is trimmed (no leading whitespace can
occur after the prefix), then at least one hex digit is required; on any
other character the conversion throws (`none`). -/
def parseHexJS (cs : List Char) : Option Nat :=
  let t := trimTrailingWS cs
  if t.isEmpty then none
  else if t.all isHexDigit then some (t.foldl (fun a c => a * 16 + hexVal c) 0) else none

/-- `result.startsWith('0x')` on the character list of a string. -/
def startsWith0x (cs : List Char) : Bool :=
  match cs with
  | c0 :: c1 :: _ => c0 = '0' && c1 = 'x'
  | _ => false

/-- The `result` transform inside `formatRpcResponse` (responseFormatter.ts
lines 8-16): if `result` is a string starting with `0x`, convert it with
`BigInt(result).toString(10)` to its decimal representation (`parseHexJS`
receives the characters after the `0x` prefix); on conversion failure
substitute the fixed error string; all other values pass through. --/
def formatResultVal (v : JVal) : JVal :=
  match v with
  | .jstr s =>
    if startsWith0x s.data then
      match parseHexJS (s.data.drop 2) with
      | some n => .jstr (Nat.repr n)
      | none => .jstr "Error converting result to decimal"
    else .jstr s
  | v => v

/-- `formatRpcResponse(response, sessionId)` (responseFormatter.ts lines
1-24): a falsy or non-object response yields
`{ error: 'Invalid response format' }`; otherwise `id` and `jsonrpc` pass
through, `sessionId` is attached and `result` is transformed by the
hex-to-decimal convenience. -/
def formatRpcResponse (response : JsBody) (sessionId : String) : FormatResult :=
  match response with
  | .obj r =>
    .ok { id := r.id, jsonrpc := r.jsonrpc, sessionId := sessionId,
          result := formatResultVal r.result }
  | _ => .invalidFormat

/-- The lowercase hexadecimal digit character for `d < 16`. -/
def hexDigitChar (d : Nat) : Char :=
  match d with
  | 0 => '0' | 1 => '1' | 2 => '2' | 3 => '3' | 4 => '4'
  | 5 => '5' | 6 => '6' | 7 => '7' | 8 => '8' | 9 => '9'
  | 10 => 'a' | 11 => 'b' | 12 => 'c' | 13 => 'd' | 14 => 'e' | 15 => 'f'
  | _ => 'x'

/-- The (lowercase) hexadecimal digit string of `n`, most significant digit
first.  This is the reference rendering of "the hexadecimal digits of n" used
to state the hex-decimal round trip. -/
def toHexCore (n : Nat) : List Char :=
  if _h : n < 16 then [hexDigitChar n]
  else toHexCore (n / 16) ++ [hexDigitChar (n % 16)]
decreasing_by
  exact Nat.div_lt_self (by omega) (by omega)

/-- Router-level errors (`ERROR_MESSAGES` in config/constants.ts, plus the
runtime `TypeError` a malformed chain element raises). -/
inductive RouterError where
  | chainNotFound
  | noHealthyRpc
  | invalidSession
  | invalidConfig
  | typeError
deriving DecidableEq, Repr

/-! ## Config loader (`RpcManager.loadRpcConfig`, rpcManager.ts lines 88-160)

The configuration file is modelled at the `JSON.parse` level: fields that may
be absent in the parsed object are `Option`s, and the `chains` value may be
missing or present-but-not-an-array (the `!configFile.chains ||
!Array.isArray(configFile.chains)` check). -/

/-- A parsed element of the `chains` array; any of the three fields may be
absent at runtime (the TypeScript types are not enforced by `JSON.parse`). -/
structure RawChain where
  chainId? : Option Nat
  name? : Option String
  urls? : Option (List String)
deriving DecidableEq, Repr

/-- The parsed `chains` value: missing key (or otherwise falsy), present but
not an array, or an array of elements. -/
inductive RawChains where
  | missing
  | notArray
  | arr (chains : List RawChain)
deriving DecidableEq, Repr

/-- A parsed configuration file. -/
structure RawConfigFile where
  chains : RawChains
deriving DecidableEq, Repr

/-- The redis keys `loadRpcConfig` touches: the `rpc:chain:*` keys (a chain
element with no `chainId` is stored under the literal key
`rpc:chain:undefined`, modelled by the `none` key) and the `rpc:health`
hash. -/
structure LoadStore where
  chainKeys : List (Option Nat × RawChain)
  health : List (String × RpcHealth)
deriving DecidableEq, Repr

/-- Observable events of one `loadRpcConfig` run, in execution order: each
`checkHealth` invocation, and the `multi.exec()` commit of the queued redis
transaction. -/
inductive LoadEvent where
  | probe (url : String)
  | commit
deriving DecidableEq, Repr

/-- Is this event a probe invocation? -/
def LoadEvent.isProbe : LoadEvent → Bool
  | .probe _ => true
  | .commit => false

/-- The outcome of one `loadRpcConfig` run: the surfaced result, the store
after the run, and the event trace. -/
structure LoadOutcome where
  result : Except RouterError Unit
  store : LoadStore
  events : List LoadEvent
deriving Repr

/-- The URL occurrences of the file's chains, in the order the per-chain
loop probes them (`for (const config of configFile.chains) { … for (const url
of config.urls) await healthChecker.checkHealth(url) }`). -/
def fileUrls (chains : List RawChain) : List String :=
  chains.flatMap (fun c => c.urls?.getD [])

/-- Run the probe loop over the health hash (each probe is a full
`checkHealth`, writing its record before the transaction commits). -/
def runProbes (health : List (String × RpcHealth)) (urls : List String)
    (probe : String → TransportOutcome) (elapsed now : Nat) :
    List (String × RpcHealth) :=
  urls.foldl (fun acc u => (checkHealth acc u (probe u) elapsed now).2) health

/-- `RpcManager.loadRpcConfig` (rpcManager.ts lines 88-160), on an already
read and parsed file:

* a missing or non-array `chains` throws `InvalidConfig` before any redis
  command (lines 94-96);
* a chain element whose `urls` is absent raises a runtime `TypeError` at
  `chain.urls.forEach` (line 108), also before any redis write;
* otherwise the old URL set is read from the health hash, the removals are
  computed, the transaction is queued (delete `rpc:chain:*`, `hDel` removed
  URLs, `hSet` each chain config with its TTL) while `checkHealth` runs
  immediately — not queued — for every URL of every chain (lines 132-143),
  and only then does `multi.exec()` commit (line 149).

Elements missing `chainId` or `name` are stored as-is.  The probe writes land
on URLs of the new config, which are disjoint from the removed URLs, so the
committed health hash is the probed hash minus the removed fields. -/
def loadRpcConfig (st : LoadStore) (file : RawConfigFile)
    (probe : String → TransportOutcome) (elapsed now : Nat) : LoadOutcome :=
  match file.chains with
  | .missing => ⟨.error .invalidConfig, st, []⟩
  | .notArray => ⟨.error .invalidConfig, st, []⟩
  | .arr chains =>
    if chains.any (fun c => c.urls?.isNone) then
      ⟨.error .typeError, st, []⟩
    else
      let newUrls := fileUrls chains
      let currentUrls := st.health.map Prod.fst
      let urlsToRemove := currentUrls.filter (fun u => !newUrls.contains u)
      let healthAfterProbes := runProbes st.health newUrls probe elapsed now
      let committed : LoadStore :=
        { chainKeys := chains.map (fun c => (c.chainId?, c)),
          health := healthAfterProbes.filter (fun e => !urlsToRemove.contains e.1) }
      ⟨.ok (), committed, newUrls.map LoadEvent.probe ++ [.commit]⟩


/-! ## RpcManager state and selector (`src/core/rpcManager.ts`) -/


/-- The state an executing request can observe: the redis-resident chain
configs (`rpc:chain:{id}` → config), the `rpc:health` hash, the
`rpc:session:{id}` keys (record plus the TTL it was written with), and the
RpcManager's in-memory collapse window (`unhealthyErrors` timestamps) together
with a count of collapse-triggered `loadRpcConfig` invocations. -/
structure Sys where
  chains : List (Nat × RpcConfig)
  health : List (String × RpcHealth)
  sessions : List (String × RpcSession × Nat)
  window : List Nat
  reloads : Nat
deriving DecidableEq, Repr

/-- `RpcManager.getChainConfig` (rpcManager.ts lines 162-175). -/
def getChainConfig (st : Sys) (chainId : Nat) : Option RpcConfig :=
  alookup st.chains chainId

/-- The eligibility predicate of `getHealthyRpcUrl` (rpcManager.ts lines
190-193): `JSON.parse(healthData[url] || '{}')` yields a record iff the URL
has an entry in the health hash; the filter keeps
`health.healthy && health.failCount < environment.rpc.maxFailCount`.
A URL with no record parses to `{}` whose `healthy` is undefined (falsy). -/
def isEligible (health : List (String × RpcHealth)) (url : String) : Bool :=
  match alookup health url with
  | some h => h.healthy && decide (h.failCount < maxFailCount)
  | none => false

/-- The `responseTime` used by the selector's comparator for a URL. -/
def responseTimeOf (health : List (String × RpcHealth)) (url : String) : Nat :=
  match alookup health url with
  | some h => h.responseTime
  | none => 0

/-- Stable insertion step used to model JavaScript's stable
`Array.prototype.sort` with comparator
`(a, b) => healthA.responseTime - healthB.responseTime`. -/
def insertByRT (rt : String → Nat) (x : String) : List String → List String
  | [] => [x]
  | y :: ys => if rt y < rt x then y :: insertByRT rt x ys else x :: y :: ys

/-- Stable ascending sort by `responseTime` (the `healthyUrls.sort(...)` of
rpcManager.ts lines 201-205; `Array.prototype.sort` is stable, so ties keep
input order). -/
def sortByRT (rt : String → Nat) : List String → List String
  | [] => []
  | x :: xs => insertByRT rt x (sortByRT rt xs)

/-- The `Nat`-keyed view of a stored chain element, used when a forced reload
writes into the runtime store: an element with a `chainId` is stored under
that id (`name`, never consulted by any modelled operation, defaults to `""`
when absent — `JSON.parse` yields `undefined` there); an element *without* a
`chainId` is stored by the source under the literal key
`rpc:chain:undefined`, which no numeric `chainId` lookup
(`getChainConfig(chainId : number)`) can ever address, so it is absent from
the `Nat`-keyed projection. -/
def RawChain.toStoredConfig? (c : RawChain) : Option (Nat × RpcConfig) :=
  match c.chainId? with
  | none => none
  | some i => some (i, ⟨i, c.name?.getD "", c.urls?.getD []⟩)

/-- `RpcManager.loadRpcConfig` acting on the runtime store (the same source
function modelled by `loadRpcConfig` above, rpcManager.ts lines 88-160, here
with its committed effect projected onto `Sys`): reject a missing /
non-array `chains` with `InvalidConfig` and an element without `urls` with
the runtime type error, leaving the store untouched; otherwise probe every
URL occurrence of the file, replace the chain keys by the file's chains
(through the `Nat`-keyed view) and drop health fields for removed URLs.  On
any error the thrown exception propagates to the caller (the source's
catch-rethrow at lines 156-159). -/
def loadRpcConfigSys (st : Sys) (file : RawConfigFile)
    (rprobe : String → TransportOutcome) (relapsed rnow : Nat) :
    Except RouterError Unit × Sys :=
  match file.chains with
  | .missing => (.error .invalidConfig, st)
  | .notArray => (.error .invalidConfig, st)
  | .arr chains =>
    if chains.any (fun c => c.urls?.isNone) then
      (.error .typeError, st)
    else
      let newUrls := fileUrls chains
      let currentUrls := st.health.map Prod.fst
      let urlsToRemove := currentUrls.filter (fun u => !newUrls.contains u)
      let healthAfterProbes := runProbes st.health newUrls rprobe relapsed rnow
      (.ok (), { st with
        chains := chains.filterMap RawChain.toStoredConfig?,
        health := healthAfterProbes.filter (fun e => !urlsToRemove.contains e.1) })

/-- `RpcManager.checkForceReload` (rpcManager.ts lines 45-58): drop window
entries older than `ERROR_TIME_WINDOW` (10000 ms), push the current time,
and when the window holds `ERROR_THRESHOLD` (3) or more entries clear it
*and then* `await this.loadRpcConfig()`: the reload's store writes land, and
a reload failure propagates as the thrown error.  The reload's external
inputs (the on-disk file and probe transport) are oracle arguments; the
`reloads` field counts the invocations. -/
def checkForceReload (st : Sys) (now : Nat) (file : RawConfigFile)
    (rprobe : String → TransportOutcome) (relapsed : Nat) :
    Except RouterError Unit × Sys :=
  let recent := st.window.filter (fun t => decide (now - t ≤ 10000))
  let pushed := recent ++ [now]
  if 3 ≤ pushed.length then
    loadRpcConfigSys { st with window := [], reloads := st.reloads + 1 }
      file rprobe relapsed now
  else
    (.ok (), { st with window := pushed })

/-- The tail of `getHealthyRpcUrl`'s empty-retained-set branch (rpcManager.ts
lines 195-198 with the catch-rethrow at 213-216): if `await
this.checkForceReload()` returned normally the branch throws `NoHealthyRpc`;
if the forced reload threw, that error propagates instead. -/
def collapseFail (res : Except RouterError Unit × Sys) : Except RouterError String × Sys :=
  match res with
  | (.ok _, st') => (.error .noHealthyRpc, st')
  | (.error e, st') => (.error e, st')

/-- `RpcManager.getHealthyRpcUrl` (rpcManager.ts lines 177-217): load the
chain config (`ChainNotFound` if absent), filter the chain's URLs by the
eligibility predicate, on an empty result run `checkForceReload` and fail —
with `NoHealthyRpc`, or with the forced reload's own error when that reload
throws — otherwise sort ascending by `responseTime` and return the first
URL. -/
def getHealthyRpcUrl (st : Sys) (chainId : Nat) (now : Nat) (file : RawConfigFile)
    (rprobe : String → TransportOutcome) (relapsed : Nat) :
    Except RouterError String × Sys :=
  match alookup st.chains chainId with
  | none => (.error .chainNotFound, st)
  | some config =>
    let healthyUrls := config.urls.filter (isEligible st.health)
    if healthyUrls.isEmpty then
      collapseFail (checkForceReload st now file rprobe relapsed)
    else
      (.ok ((sortByRT (responseTimeOf st.health) healthyUrls).headD ""), st)

/-- `RpcManager.createSession` (rpcManager.ts lines 219-249): pick a healthy
URL, build the session record (`uuidv4()` modelled by `freshId`), and store
it under `rpc:session:{id}` with TTL `sessionTtl`. -/
def createSession (st : Sys) (chainId : Nat) (freshId : String) (now : Nat)
    (file : RawConfigFile) (rprobe : String → TransportOutcome) (relapsed : Nat) :
    Except RouterError RpcSession × Sys :=
  match getHealthyRpcUrl st chainId now file rprobe relapsed with
  | (.error e, st') => (.error e, st')
  | (.ok url, st') =>
    let s : RpcSession :=
      { id := freshId, url := url, chainId := chainId, createdAt := now,
        lastUsed := now, requestCount := 0 }
    (.ok s, { st' with sessions := hset st'.sessions freshId (s, sessionTtl) })

/-- `RpcManager.getSession` (rpcManager.ts lines 251-265). -/
def getSession (st : Sys) (sessionId : String) : Option RpcSession :=
  (alookup st.sessions sessionId).map Prod.fst

/-- `RpcManager.updateSession` (rpcManager.ts lines 267-288): bump `lastUsed`
and `requestCount` and rewrite the key with TTL `sessionTtl`. -/
def updateSession (st : Sys) (s : RpcSession) (now : Nat) : Sys :=
  let s' := { s with lastUsed := now, requestCount := s.requestCount + 1 }
  { st with sessions := hset st.sessions s.id (s', sessionTtl) }

/-- `RpcManager.deleteSession` (rpcManager.ts lines 319-329). -/
def deleteSession (st : Sys) (sessionId : String) : Sys :=
  { st with sessions := st.sessions.filter (fun e => decide (e.1 ≠ sessionId)) }

/-- The per-chain statistics record returned by `RpcManager.getChainStats`.
`averageResponseTime` (a JavaScript float division) is modelled as an exact
rational. -/
structure ChainStats where
  totalSessions : Nat
  activeUrls : Nat
  healthyUrls : Nat
  averageResponseTime : Rat
deriving DecidableEq, Repr

/-- `RpcManager.getChainStats` (rpcManager.ts lines 331-382): count sessions
whose `chainId` matches, project the chain's URLs onto their health records
(records written by `checkHealth` always carry their `url`, so the
`filter(h => h.url)` keeps exactly the URLs that have a record), count the
eligible ones and average the response times. -/
def getChainStats (st : Sys) (chainId : Nat) : Except RouterError ChainStats :=
  match alookup st.chains chainId with
  | none => .error .chainNotFound
  | some config =>
    let chainSessions := (st.sessions.filter (fun e => decide (e.2.1.chainId = chainId))).length
    let urlHealths := config.urls.filterMap (alookup st.health)
    let healthyCount :=
      (urlHealths.filter (fun h => h.healthy && decide (h.failCount < maxFailCount))).length
    let avg : Rat :=
      if 0 < urlHealths.length then
        ((urlHealths.map RpcHealth.responseTime).sum : Nat) / (urlHealths.length : Rat)
      else 0
    .ok { totalSessions := chainSessions, activeUrls := urlHealths.length,
          healthyUrls := healthyCount, averageResponseTime := avg }

/-! ## Executor (`src/services/rpc.service.ts`) -/

/-- The outcome of the forwarded `axios.post(session.url, rpcRequest, …)`:
either a response arrived (HTTP status plus the decoded `data` body), or the
transport failed with no response.  axios rejects on non-2xx; in that case
`error.response.data` is the carried body. -/
inductive ForwardOutcome where
  | response (status : Nat) (data : JsBody)
  | netError
deriving DecidableEq, Repr

/-- Apply a health-checker probe to the system state (the
`HealthChecker.getInstance().checkHealth(session.url)` call on a failed
forward). -/
def applyCheckHealth (st : Sys) (url : String) (t : TransportOutcome)
    (elapsed now : Nat) : Sys :=
  { st with health := (checkHealth st.health url t elapsed now).2 }

/-- The session-resolution prefix of `RpcService.executeRequest`
(rpc.service.ts lines 31-50): with a session id, an unknown id fails with
`InvalidSession`; a record for a different chain is deleted and replaced by a
fresh session; a matching record is reused; without a session id a fresh
session is created. -/
def resolveSession (st : Sys) (chainId : Nat) (sessionId : Option String)
    (freshId : String) (now : Nat) (file : RawConfigFile)
    (rprobe : String → TransportOutcome) (relapsed : Nat) :
    Except RouterError RpcSession × Sys :=
  match sessionId with
  | some sid =>
    match getSession st sid with
    | none => (.error .invalidSession, st)
    | some existing =>
      if existing.chainId ≠ chainId then
        createSession (deleteSession st sid) chainId freshId now file rprobe relapsed
      else
        (.ok existing, st)
  | none => createSession st chainId freshId now file rprobe relapsed

/-- The forwarding phase of `RpcService.executeRequest` (rpc.service.ts lines
52-78): on a 2xx response, `updateSession` then return the formatted reply;
on an axios rejection, probe `session.url` with `checkHealth` and, when
`error.response?.data` is truthy, return that body formatted, otherwise fail
with `NoHealthyRpc`. -/
def forwardPhase (st : Sys) (s : RpcSession) (forward : ForwardOutcome)
    (probe : TransportOutcome) (probeElapsed now : Nat) :
    Except RouterError FormatResult × Sys :=
  match forward with
  | .response status data =>
    if 200 ≤ status ∧ status < 300 then
      (.ok (formatRpcResponse data s.id), updateSession st s now)
    else
      let st2 := applyCheckHealth st s.url probe probeElapsed now
      if data.truthy then (.ok (formatRpcResponse data s.id), st2)
      else (.error .noHealthyRpc, st2)
  | .netError =>
    (.error .noHealthyRpc, applyCheckHealth st s.url probe probeElapsed now)

/-- `RpcService.executeRequest(chainId, rpcRequest, sessionId?)`
(rpc.service.ts lines 26-79): resolve the session binding, then forward.
The forwarded payload itself is opaque to the router and omitted; `freshId`,
`forward`, `probe` and the clocks are oracle inputs. -/
def executeRequest (st : Sys) (chainId : Nat) (sessionId : Option String)
    (freshId : String) (now : Nat) (forward : ForwardOutcome)
    (probe : TransportOutcome) (probeElapsed : Nat) (file : RawConfigFile)
    (rprobe : String → TransportOutcome) (relapsed : Nat) :
    Except RouterError FormatResult × Sys :=
  match resolveSession st chainId sessionId freshId now file rprobe relapsed with
  | (.error e, st1) => (.error e, st1)
  | (.ok s, st1) => forwardPhase st1 s forward probe probeElapsed now

/-- `RpcService.getEndpoint` (rpc.service.ts lines 21-24): create a session
and return only its URL. -/
def getEndpoint (st : Sys) (chainId : Nat) (freshId : String) (now : Nat)
    (file : RawConfigFile) (rprobe : String → TransportOutcome) (relapsed : Nat) :
    Except RouterError String × Sys :=
  match createSession st chainId freshId now file rprobe relapsed with
  | (.error e, st') => (.error e, st')
  | (.ok s, st') => (.ok s.url, st')

/-! ## Specification-side definitions used by the theorems -/

/-- The first element of `l` attaining the minimal `rt` value (the element a
stable ascending sort by `rt` places first). -/
def firstMinByRT (rt : String → Nat) : List String → Option String
  | [] => none
  | x :: xs =>
    match firstMinByRT rt xs with
    | none => some x
    | some y => if rt x ≤ rt y then some x else some y

/-- The health-hash invariant of §3: every record with `healthy = true` has
`failCount = 0`. -/
def healthInv (health : List (String × RpcHealth)) : Prop :=
  ∀ p ∈ health, p.2.healthy = true → p.2.failCount = 0

/-- The ordering property C4 asserts of a `loadRpcConfig` trace: every commit
event precedes every probe event (probes are triggered only after the
transaction has committed). -/
def probesAfterCommit (evs : List LoadEvent) : Prop :=
  ∀ i j : Fin evs.length, evs.get i = .commit → (evs.get j).isProbe = true → i < j

instance (evs : List LoadEvent) : Decidable (probesAfterCommit evs) := by
  unfold probesAfterCommit
  infer_instance

/-! ### Concrete fixtures used by the witness theorems -/

/-- Four probed URLs: `A` and `B` eligible with equal response times, `C`
healthy but at `failCount = 3`, `D` unhealthy. -/
def exHealth : List (String × RpcHealth) :=
  [("A", ⟨"A", true, 0, 10, 0⟩), ("B", ⟨"B", true, 0, 10, 0⟩),
   ("C", ⟨"C", true, 0, 5, 3⟩), ("D", ⟨"D", false, 0, 1, 0⟩)]

/-- A chain configuration listing the four URLs. -/
def exConfig : RpcConfig := ⟨1, "eth", ["C", "D", "A", "B"]⟩

/-- A system state holding the chain and health fixtures. -/
def exSys : Sys := ⟨[(1, exConfig)], exHealth, [], [], 0⟩

/-- A session pinned to URL `A` for chain 1. -/
def exSession : RpcSession := ⟨"s", "A", 1, 0, 0, 0⟩

/-- `exSys` with the session stored. -/
def exSysSession : Sys := ⟨[(1, exConfig)], exHealth, [("s", exSession, 3600)], [], 0⟩

/-! ## Theorems -/

/-- C1.  The claim says every unsuccessful probe (no HTTP 200 with a defined
`result`) writes `healthy = false` and `failCount = prior + 1`, `failCount`
being reset to 0 only on a successful probe.  The code contradicts this (and
its own comment "Reset fail count when healthy"): a transport reply of HTTP
200 whose body has no `result` stays in the try branch, which writes
`failCount: 0` unconditionally.  With a prior record at `failCount = 2`, such
a probe writes `{healthy: false, failCount: 0}` instead of `failCount = 3`. -/
theorem checkHealth_200_no_result_resets_failCount :
    (checkHealth [("u", ⟨"u", false, 0, 50, 2⟩)] "u" (.response 200 false) 7 100).1.healthy
        = false ∧
    (checkHealth [("u", ⟨"u", false, 0, 50, 2⟩)] "u" (.response 200 false) 7 100).1.failCount
        = 0 ∧
    (checkHealth [("u", ⟨"u", false, 0, 50, 2⟩)] "u" (.response 200 false) 7 100).1.failCount
        ≠ 2 + 1 ∧
    alookup (checkHealth [("u", ⟨"u", false, 0, 50, 2⟩)] "u" (.response 200 false) 7 100).2 "u"
        = some (checkHealth [("u", ⟨"u", false, 0, 50, 2⟩)] "u" (.response 200 false) 7 100).1 := by
  decide

theorem healthInv_hset {health : List (String × RpcHealth)} {url : String} {h : RpcHealth}
    (inv : healthInv health) (hh : h.healthy = true → h.failCount = 0) :
    healthInv (hset health url h) := by
  induction health with
  | nil =>
    intro p hp
    simp [hset] at hp
    subst hp
    exact hh
  | cons q t ih =>
    obtain ⟨k, v⟩ := q
    have invt : healthInv t := fun p hp => inv p (List.mem_cons_of_mem _ hp)
    intro p hp
    by_cases hk : k = url
    · subst hk
      simp only [hset, if_pos rfl] at hp
      rcases List.mem_cons.mp hp with h1 | h1
      · subst h1; exact hh
      · exact inv p (List.mem_cons_of_mem _ h1)
    · simp only [hset, if_neg hk] at hp
      rcases List.mem_cons.mp hp with h1 | h1
      · subst h1; exact inv _ (List.mem_cons_self _ _)
      · exact ih invt p h1

theorem healthInv_checkHealth (health : List (String × RpcHealth)) (url : String)
    (t : TransportOutcome) (elapsed now : Nat) (inv : healthInv health) :
    healthInv (checkHealth health url t elapsed now).2 := by
  cases t with
  | response status hasResult =>
    by_cases hs : 200 ≤ status ∧ status < 300
    · simp only [checkHealth, if_pos hs]
      exact healthInv_hset inv (fun _ => rfl)
    · simp only [checkHealth, if_neg hs, checkHealthFail]
      exact healthInv_hset inv (by simp)
  | netError =>
    simp only [checkHealth, checkHealthFail]
    exact healthInv_hset inv (by simp)

theorem healthInv_runProbes (health : List (String × RpcHealth)) (urls : List String)
    (probe : String → TransportOutcome) (elapsed now : Nat) (inv : healthInv health) :
    healthInv (runProbes health urls probe elapsed now) := by
  induction urls generalizing health with
  | nil => exact inv
  | cons u t ih =>
    exact ih _ (healthInv_checkHealth health u (probe u) elapsed now inv)

theorem healthInv_filter {health : List (String × RpcHealth)} (inv : healthInv health)
    (p : String × RpcHealth → Bool) : healthInv (health.filter p) :=
  fun q hq => inv q (List.mem_of_mem_filter hq)

/-- C8.  Every record of the health hash with `healthy = true` has
`failCount = 0`, and this invariant is preserved by every write to the hash:
by `checkHealth` (periodic probes and forwarded-failure demotions alike, both
outcomes), and by `loadRpcConfig` (whose only hash writes are the probes it
runs and the removal of dropped URLs). -/
theorem healthInv_preserved :
    (∀ (health : List (String × RpcHealth)) (url : String) (t : TransportOutcome)
        (elapsed now : Nat), healthInv health →
        healthInv (checkHealth health url t elapsed now).2) ∧
    (∀ (st : LoadStore) (file : RawConfigFile) (probe : String → TransportOutcome)
        (elapsed now : Nat), healthInv st.health →
        healthInv (loadRpcConfig st file probe elapsed now).store.health) := by
  refine ⟨healthInv_checkHealth, ?_⟩
  intro st file probe elapsed now inv
  cases hc : file.chains with
  | missing => simpa [loadRpcConfig, hc] using inv
  | notArray => simpa [loadRpcConfig, hc] using inv
  | arr chains =>
    by_cases hbad : chains.any (fun c => c.urls?.isNone)
    · simpa [loadRpcConfig, hc, hbad] using inv
    · simp only [loadRpcConfig, hc, if_neg hbad]
      exact healthInv_filter (healthInv_runProbes _ _ _ _ _ inv) _

/-- Witness for C8 at a concrete state: a singleton healthy record with
`failCount = 0` keeps the invariant through a failed probe and through a
reload of a one-chain file. -/
theorem healthInv_preserved_witness :
    healthInv (checkHealth [("u", ⟨"u", true, 0, 5, 0⟩)] "u" .netError 1 2).2 ∧
    healthInv (loadRpcConfig ⟨[], [("u", ⟨"u", true, 0, 5, 0⟩)]⟩
      ⟨.arr [⟨some 1, some "eth", some ["u"]⟩]⟩ (fun _ => .netError) 1 2).store.health := by
  constructor
  · exact healthInv_preserved.1 [("u", ⟨"u", true, 0, 5, 0⟩)] "u" .netError 1 2
      (by intro p hp; simp at hp; subst hp; simp)
  · exact healthInv_preserved.2 ⟨[], [("u", ⟨"u", true, 0, 5, 0⟩)]⟩
      ⟨.arr [⟨some 1, some "eth", some ["u"]⟩]⟩ (fun _ => .netError) 1 2
      (by intro p hp; simp at hp; subst hp; simp)

/-! ### Hex round-trip lemmas for C6 -/

theorem hexVal_hexDigitChar {d : Nat} (hd : d < 16) : hexVal (hexDigitChar d) = d := by
  interval_cases d <;> decide

theorem isHexDigit_hexDigitChar {d : Nat} (hd : d < 16) : isHexDigit (hexDigitChar d) = true := by
  interval_cases d <;> decide

theorem toHexCore_ne_nil (n : Nat) : toHexCore n ≠ [] := by
  rw [toHexCore]
  split
  · simp
  · simp

theorem toHexCore_all_hex (n : Nat) : ∀ c ∈ toHexCore n, isHexDigit c = true := by
  induction n using Nat.strong_induction_on with
  | _ n ih =>
    rw [toHexCore]
    split
    · next h =>
      intro c hc
      simp only [List.mem_singleton] at hc
      subst hc
      exact isHexDigit_hexDigitChar h
    · next h =>
      intro c hc
      rcases List.mem_append.mp hc with hc | hc
      · exact ih _ (Nat.div_lt_self (by omega) (by omega)) c hc
      · simp only [List.mem_singleton] at hc
        subst hc
        exact isHexDigit_hexDigitChar (Nat.mod_lt _ (by omega))

theorem foldl_hex_toHexCore (n : Nat) :
    ∀ acc : Nat, (toHexCore n).foldl (fun a c => a * 16 + hexVal c) acc
      = acc * 16 ^ (toHexCore n).length + n := by
  induction n using Nat.strong_induction_on with
  | _ n ih =>
    intro acc
    rw [toHexCore]
    split
    · next h =>
      simp [hexVal_hexDigitChar h]
    · next h =>
      have hdiv : n / 16 < n := Nat.div_lt_self (by omega) (by omega)
      have hmod : hexVal (hexDigitChar (n % 16)) = n % 16 :=
        hexVal_hexDigitChar (Nat.mod_lt _ (by omega))
      simp only [List.foldl_append, List.foldl_cons, List.foldl_nil, ih _ hdiv,
        List.length_append, List.length_cons, List.length_nil, hmod, Nat.zero_add,
        pow_succ]
      have e1 : ∀ K : Nat, (acc * K + n / 16) * 16 + n % 16
          = acc * (K * 16) + (n / 16 * 16 + n % 16) := by
        intro K; ring
      rw [e1]
      omega

theorem isWS_eq_false_of_isHexDigit {c : Char} (h : isHexDigit c = true) : isWS c = false := by
  by_contra hws
  rw [Bool.not_eq_false] at hws
  unfold isWS at hws
  simp only [Bool.or_eq_true, decide_eq_true_eq] at hws
  rcases hws with ((((h1 | h1) | h1) | h1) | h1) | h1 <;> subst h1 <;>
    exact absurd h (by decide)

theorem trimTrailingWS_of_all_hex {cs : List Char} (h : ∀ c ∈ cs, isHexDigit c = true) :
    trimTrailingWS cs = cs := by
  induction cs with
  | nil => rfl
  | cons c t ih =>
    have ht : trimTrailingWS t = t := ih (fun x hx => h x (List.mem_cons_of_mem _ hx))
    unfold trimTrailingWS
    rw [ht]
    cases t with
    | nil => simp [isWS_eq_false_of_isHexDigit (h c (List.mem_cons_self _ _))]
    | cons a b => rfl

theorem parseHexJS_toHexCore (n : Nat) : parseHexJS (toHexCore n) = some n := by
  have hall : ∀ c ∈ toHexCore n, isHexDigit c = true := toHexCore_all_hex n
  have hne : toHexCore n ≠ [] := toHexCore_ne_nil n
  simp only [parseHexJS, trimTrailingWS_of_all_hex hall]
  rw [if_neg (by simpa [List.isEmpty_iff] using hne), if_pos (List.all_eq_true.mpr hall)]
  rw [foldl_hex_toHexCore n 0]
  simp

/-- C6.  The hex-decimal convenience of `formatRpcResponse`: a reply whose
`result` is `"0x"` followed by the hexadecimal digits of `n` is formatted
with `result` equal to the decimal string of `n` (exact arithmetic at any
size); a `0x`-prefixed string the number conversion rejects becomes the fixed
error string; a non-string `result` passes through unchanged. -/
theorem formatRpcResponse_hex_decimal :
    (∀ (n : Nat) (i j : JVal) (sid : String),
      formatRpcResponse (.obj ⟨i, j, .jstr ⟨'0' :: 'x' :: toHexCore n⟩⟩) sid
        = .ok ⟨i, j, sid, .jstr (Nat.repr n)⟩) ∧
    (∀ (rest : List Char) (i j : JVal) (sid : String), parseHexJS rest = none →
      formatRpcResponse (.obj ⟨i, j, .jstr ⟨'0' :: 'x' :: rest⟩⟩) sid
        = .ok ⟨i, j, sid, .jstr "Error converting result to decimal"⟩) ∧
    (∀ (v i j : JVal) (sid : String), (∀ s, v ≠ .jstr s) →
      formatRpcResponse (.obj ⟨i, j, v⟩) sid = .ok ⟨i, j, sid, v⟩) := by
  refine ⟨?_, ?_, ?_⟩
  · intro n i j sid
    simp [formatRpcResponse, formatResultVal, startsWith0x, parseHexJS_toHexCore]
  · intro rest i j sid hfail
    simp [formatRpcResponse, formatResultVal, startsWith0x, hfail]
  · intro v i j sid hv
    cases v with
    | jstr s => exact absurd rfl (hv s)
    | jnum m => rfl
    | jbool b => rfl
    | jnull => rfl
    | jundef => rfl

/-- Witness for C6 at concrete inputs: `0x2540be400` formats to
`10000000000`; `0xzz` (conversion failure) formats to the error string; a
numeric `result` passes through. -/
theorem formatRpcResponse_hex_decimal_witness :
    formatRpcResponse (.obj ⟨.jnum 7, .jstr "2.0", .jstr ⟨'0' :: 'x' :: toHexCore 10000000000⟩⟩)
        "sid" = .ok ⟨.jnum 7, .jstr "2.0", "sid", .jstr (Nat.repr 10000000000)⟩ ∧
    formatRpcResponse (.obj ⟨.jnum 7, .jstr "2.0", .jstr ⟨'0' :: 'x' :: ['z', 'z']⟩⟩) "sid"
        = .ok ⟨.jnum 7, .jstr "2.0", "sid", .jstr "Error converting result to decimal"⟩ ∧
    formatRpcResponse (.obj ⟨.jnum 7, .jstr "2.0", .jbool true⟩) "sid"
        = .ok ⟨.jnum 7, .jstr "2.0", "sid", .jbool true⟩ := by
  refine ⟨?_, ?_, ?_⟩
  · exact formatRpcResponse_hex_decimal.1 10000000000 (.jnum 7) (.jstr "2.0") "sid"
  · exact formatRpcResponse_hex_decimal.2.1 ['z', 'z'] (.jnum 7) (.jstr "2.0") "sid" (by decide)
  · exact formatRpcResponse_hex_decimal.2.2 (.jbool true) (.jnum 7) (.jstr "2.0") "sid"
      (fun s h => JVal.noConfusion h)

/-- C2.  When the forwarded POST fails (non-2xx status or transport failure)
after the session resolved to `s`: the health probe of `s.url` is applied to
the state in every failure case, and when the upstream returned a decodable
(truthy) body that body is returned formatted — the upstream's JSON-RPC error
payload reaches the client; only with no decodable body does the call fail
with `NoHealthyRpc`. -/
theorem executeRequest_bubbles_upstream_body (st : Sys) (chainId : Nat)
    (sessionId : Option String) (freshId : String) (now : Nat) (s : RpcSession) (st1 : Sys)
    (file : RawConfigFile) (rprobe : String → TransportOutcome) (relapsed : Nat)
    (hres : resolveSession st chainId sessionId freshId now file rprobe relapsed
      = (.ok s, st1))
    (status : Nat) (data : JsBody) (probe : TransportOutcome) (pe : Nat)
    (hbad : ¬ (200 ≤ status ∧ status < 300)) :
    (data.truthy = true →
      executeRequest st chainId sessionId freshId now (.response status data) probe pe
          file rprobe relapsed
        = (.ok (formatRpcResponse data s.id), applyCheckHealth st1 s.url probe pe now)) ∧
    (data.truthy = false →
      executeRequest st chainId sessionId freshId now (.response status data) probe pe
          file rprobe relapsed
        = (.error .noHealthyRpc, applyCheckHealth st1 s.url probe pe now)) ∧
    executeRequest st chainId sessionId freshId now .netError probe pe file rprobe relapsed
        = (.error .noHealthyRpc, applyCheckHealth st1 s.url probe pe now) := by
  refine ⟨?_, ?_, ?_⟩
  · intro htruthy
    simp [executeRequest, hres, forwardPhase, if_neg hbad, htruthy]
  · intro hfalsy
    simp [executeRequest, hres, forwardPhase, if_neg hbad, hfalsy]
  · simp [executeRequest, hres, forwardPhase]

/-- Witness for C2: a pinned session for chain 1, upstream returns HTTP 500
with a decodable JSON-RPC error body; the body comes back formatted and the
URL is demoted; with a falsy body or a network error the call fails with
`NoHealthyRpc`. -/
theorem executeRequest_bubbles_upstream_body_witness :
    executeRequest
        ⟨[(1, ⟨1, "eth", ["A"]⟩)], [("A", ⟨"A", true, 0, 10, 0⟩)],
         [("s", ⟨"s", "A", 1, 0, 0, 0⟩, 3600)], [], 0⟩
        1 (some "s") "f" 9 (.response 500 (.obj ⟨.jnum 1, .jstr "2.0", .jnull⟩)) .netError 3
        ⟨.missing⟩ (fun _ => .netError) 0
      = (.ok (formatRpcResponse (.obj ⟨.jnum 1, .jstr "2.0", .jnull⟩) "s"),
         applyCheckHealth
           ⟨[(1, ⟨1, "eth", ["A"]⟩)], [("A", ⟨"A", true, 0, 10, 0⟩)],
            [("s", ⟨"s", "A", 1, 0, 0, 0⟩, 3600)], [], 0⟩
           "A" .netError 3 9) := by
  exact (executeRequest_bubbles_upstream_body
    ⟨[(1, ⟨1, "eth", ["A"]⟩)], [("A", ⟨"A", true, 0, 10, 0⟩)],
     [("s", ⟨"s", "A", 1, 0, 0, 0⟩, 3600)], [], 0⟩
    1 (some "s") "f" 9 ⟨"s", "A", 1, 0, 0, 0⟩
    ⟨[(1, ⟨1, "eth", ["A"]⟩)], [("A", ⟨"A", true, 0, 10, 0⟩)],
     [("s", ⟨"s", "A", 1, 0, 0, 0⟩, 3600)], [], 0⟩
    ⟨.missing⟩ (fun _ => .netError) 0
    rfl 500 (.obj ⟨.jnum 1, .jstr "2.0", .jnull⟩) .netError 3 (by decide)).1 rfl

/-! ### Selector lemmas for C3 -/

theorem firstMinByRT_isSome (rt : String → Nat) (x : String) (xs : List String) :
    (firstMinByRT rt (x :: xs)).isSome = true := by
  simp only [firstMinByRT]
  cases firstMinByRT rt xs with
  | none => rfl
  | some y =>
    show (if rt x ≤ rt y then some x else some y).isSome = true
    split <;> rfl

theorem head?_sortByRT (rt : String → Nat) (l : List String) :
    (sortByRT rt l).head? = firstMinByRT rt l := by
  induction l with
  | nil => rfl
  | cons x xs ih =>
    simp only [sortByRT, firstMinByRT]
    cases h : sortByRT rt xs with
    | nil =>
      have hfm : firstMinByRT rt xs = none := by rw [← ih, h]; rfl
      rw [hfm]
      rfl
    | cons y ys =>
      have hfm : firstMinByRT rt xs = some y := by rw [← ih, h]; rfl
      rw [hfm]
      show (insertByRT rt x (y :: ys)).head? = if rt x ≤ rt y then some x else some y
      simp only [insertByRT]
      by_cases hlt : rt y < rt x
      · rw [if_pos hlt, if_neg (by omega)]
        rfl
      · rw [if_neg hlt, if_pos (by omega)]
        rfl

theorem firstMinByRT_spec (rt : String → Nat) (l : List String) (u : String)
    (h : firstMinByRT rt l = some u) :
    (∀ v ∈ l, rt u ≤ rt v) ∧
      ∃ pre post, l = pre ++ u :: post ∧ ∀ v ∈ pre, rt u < rt v := by
  induction l generalizing u with
  | nil => simp [firstMinByRT] at h
  | cons x xs ih =>
    simp only [firstMinByRT] at h
    cases hfm : firstMinByRT rt xs with
    | none =>
      rw [hfm] at h
      replace h : some x = some u := h
      obtain rfl : x = u := Option.some.inj h
      have hxs : xs = [] := by
        cases hxs : xs with
        | nil => rfl
        | cons a b =>
          have := firstMinByRT_isSome rt a b
          rw [← hxs, hfm] at this
          exact absurd this (by simp)
      subst hxs
      exact ⟨by simp, [], [], rfl, by simp⟩
    | some y =>
      rw [hfm] at h
      replace h : (if rt x ≤ rt y then some x else some y) = some u := h
      obtain ⟨hmin, pre, post, hsplit, hpre⟩ := ih y hfm
      by_cases hxy : rt x ≤ rt y
      · rw [if_pos hxy] at h
        obtain rfl : x = u := Option.some.inj h
        refine ⟨?_, [], xs, rfl, by simp⟩
        intro v hv
        rcases List.mem_cons.mp hv with rfl | hv
        · exact le_refl _
        · exact le_trans hxy (hmin v hv)
      · rw [if_neg hxy] at h
        obtain rfl : y = u := Option.some.inj h
        refine ⟨?_, x :: pre, post, by rw [hsplit]; rfl, ?_⟩
        · intro v hv
          rcases List.mem_cons.mp hv with rfl | hv
          · omega
          · exact hmin v hv
        · intro v hv
          rcases List.mem_cons.mp hv with rfl | hv
          · omega
          · exact hpre v hv

theorem isSome_of_isEligible {health : List (String × RpcHealth)} {url : String}
    (h : isEligible health url = true) : (alookup health url).isSome = true := by
  unfold isEligible at h
  cases hl : alookup health url <;> rw [hl] at h
  · exact absurd h (by simp)
  · rfl

theorem getHealthyRpcUrl_ok (st : Sys) (chainId now : Nat) (config : RpcConfig)
    (file : RawConfigFile) (rprobe : String → TransportOutcome) (relapsed : Nat)
    (hcfg : alookup st.chains chainId = some config)
    (hne : config.urls.filter (isEligible st.health) ≠ []) :
    getHealthyRpcUrl st chainId now file rprobe relapsed
      = (.ok ((sortByRT (responseTimeOf st.health)
          (config.urls.filter (isEligible st.health))).headD ""), st) := by
  have hempty : (config.urls.filter (isEligible st.health)).isEmpty = false := by
    cases hsh : config.urls.filter (isEligible st.health) with
    | nil => exact absurd hsh hne
    | cons a b => rfl
  unfold getHealthyRpcUrl
  rw [hcfg]
  show (if (config.urls.filter (isEligible st.health)).isEmpty = true
      then collapseFail (checkForceReload st now file rprobe relapsed)
      else (Except.ok ((sortByRT (responseTimeOf st.health)
        (config.urls.filter (isEligible st.health))).headD ""), st))
    = _
  rw [hempty]
  simp only [Bool.false_eq_true, if_false]

/-- C3.  For a present chain config with a non-empty retained set,
`getHealthyRpcUrl` returns a URL of the config that is eligible (healthy,
`failCount < maxFailCount`, and backed by an actual health record — URLs with
no record are never returned), whose `responseTime` is minimal among all
eligible URLs; it is the first minimal one in `config.urls` order (every
eligible URL listed before it is strictly slower), the tie-break being input
order.  The state is unchanged. -/
theorem getHealthyRpcUrl_selects (st : Sys) (chainId now : Nat) (config : RpcConfig)
    (file : RawConfigFile) (rprobe : String → TransportOutcome) (relapsed : Nat)
    (hcfg : alookup st.chains chainId = some config)
    (hne : config.urls.filter (isEligible st.health) ≠ []) :
    ∃ u, getHealthyRpcUrl st chainId now file rprobe relapsed = (.ok u, st) ∧
      u ∈ config.urls ∧ isEligible st.health u = true ∧
      (alookup st.health u).isSome = true ∧
      (∀ v ∈ config.urls, isEligible st.health v = true →
        responseTimeOf st.health u ≤ responseTimeOf st.health v) ∧
      ∃ pre post, config.urls.filter (isEligible st.health) = pre ++ u :: post ∧
        ∀ v ∈ pre, responseTimeOf st.health u < responseTimeOf st.health v := by
  obtain ⟨u, hu⟩ : ∃ u, firstMinByRT (responseTimeOf st.health)
      (config.urls.filter (isEligible st.health)) = some u := by
    cases hsh : config.urls.filter (isEligible st.health) with
    | nil => exact absurd hsh hne
    | cons a b => exact Option.isSome_iff_exists.mp (firstMinByRT_isSome _ a b)
  obtain ⟨hmin, pre, post, hsplit, hpre⟩ := firstMinByRT_spec _ _ u hu
  have humem : u ∈ config.urls.filter (isEligible st.health) := by
    rw [hsplit]
    exact List.mem_append_right _ (List.mem_cons_self _ _)
  have hu_urls : u ∈ config.urls := List.mem_of_mem_filter humem
  have hu_elig : isEligible st.health u = true := List.of_mem_filter humem
  have hsel : getHealthyRpcUrl st chainId now file rprobe relapsed = (.ok u, st) := by
    have hhead : (sortByRT (responseTimeOf st.health)
        (config.urls.filter (isEligible st.health))).headD "" = u := by
      rw [List.headD_eq_head?_getD, head?_sortByRT, hu]
      rfl
    rw [getHealthyRpcUrl_ok st chainId now config file rprobe relapsed hcfg hne, hhead]
  refine ⟨u, hsel, hu_urls, hu_elig, isSome_of_isEligible hu_elig, ?_, pre, post, hsplit, hpre⟩
  intro v hv hvelig
  exact hmin v (List.mem_filter.mpr ⟨hv, hvelig⟩)

/-- Witness for C3: chain 1 with URLs `[C, D, A, B]` where `C` is healthy but
at `failCount = 3`, `D` is unhealthy, and `A`, `B` are eligible with equal
response times; the selector must pick `A`. -/
theorem getHealthyRpcUrl_selects_witness :
    ∃ u, getHealthyRpcUrl exSys 1 0 ⟨.missing⟩ (fun _ => .netError) 0 = (.ok u, exSys) ∧
      u ∈ exConfig.urls ∧ isEligible exSys.health u = true ∧
      (alookup exSys.health u).isSome = true ∧
      (∀ v ∈ exConfig.urls, isEligible exSys.health v = true →
        responseTimeOf exSys.health u ≤ responseTimeOf exSys.health v) ∧
      ∃ pre post, exConfig.urls.filter (isEligible exSys.health) = pre ++ u :: post ∧
        ∀ v ∈ pre, responseTimeOf exSys.health u < responseTimeOf exSys.health v := by
  exact getHealthyRpcUrl_selects exSys 1 0 exConfig ⟨.missing⟩ (fun _ => .netError) 0
    rfl (by decide)

theorem alookup_filter_key_self {κ α : Type} [DecidableEq κ] (l : List (κ × α)) (k : κ) :
    alookup (l.filter (fun e => decide (e.1 ≠ k))) k = none := by
  induction l with
  | nil => rfl
  | cons p t ih =>
    obtain ⟨k', v⟩ := p
    by_cases h : k' = k
    · subst h
      simpa [List.filter_cons] using ih
    · have ih' : alookup (List.filter (fun e => !decide (e.1 = k)) t) k = none := by
        simpa using ih
      simp [List.filter_cons, h, ih']

/-- C7.  Chain switch: when `executeRequest(chainId, …, sid)` finds a stored
session bound to a different chain, it deletes `session:{sid}` (a subsequent
`getSession sid` yields `null` — the old record is removed, never mutated in
place) and creates and uses a fresh session (id `freshId` from `uuidv4`,
distinct from `sid`) bound to `chainId`.  This holds in the final state for
every forwarding outcome, provided the new chain has an eligible URL so that
session creation succeeds. -/
theorem executeRequest_chain_switch (st : Sys) (chainId : Nat) (sid freshId : String)
    (now : Nat) (es : RpcSession) (config : RpcConfig)
    (file : RawConfigFile) (rprobe : String → TransportOutcome) (relapsed : Nat)
    (hs : getSession st sid = some es) (hne : es.chainId ≠ chainId)
    (hcfg : alookup st.chains chainId = some config)
    (helig : config.urls.filter (isEligible st.health) ≠ [])
    (hid : freshId ≠ sid)
    (forward : ForwardOutcome) (probe : TransportOutcome) (pe : Nat) :
    getSession (executeRequest st chainId (some sid) freshId now forward probe pe
        file rprobe relapsed).2 sid = none ∧
    ∃ s', getSession (executeRequest st chainId (some sid) freshId now forward probe pe
        file rprobe relapsed).2 freshId = some s' ∧ s'.chainId = chainId ∧ s'.id = freshId := by
  have hgh : getHealthyRpcUrl (deleteSession st sid) chainId now file rprobe relapsed
      = (.ok ((sortByRT (responseTimeOf st.health)
          (config.urls.filter (isEligible st.health))).headD ""), deleteSession st sid) :=
    getHealthyRpcUrl_ok (deleteSession st sid) chainId now config file rprobe relapsed
      hcfg helig
  generalize hu0 : (sortByRT (responseTimeOf st.health)
      (config.urls.filter (isEligible st.health))).headD "" = u0 at hgh
  set s₀ : RpcSession := ⟨freshId, u0, chainId, now, now, 0⟩ with hs₀
  set st1 : Sys := { deleteSession st sid with
    sessions := hset (deleteSession st sid).sessions freshId (s₀, sessionTtl) } with hst1
  have hres : resolveSession st chainId (some sid) freshId now file rprobe relapsed
      = (.ok s₀, st1) := by
    show (match getSession st sid with
      | none => (Except.error RouterError.invalidSession, st)
      | some existing =>
        if existing.chainId ≠ chainId then
          createSession (deleteSession st sid) chainId freshId now file rprobe relapsed
        else (Except.ok existing, st)) = (.ok s₀, st1)
    rw [hs]
    show (if es.chainId ≠ chainId then
            createSession (deleteSession st sid) chainId freshId now file rprobe relapsed
          else (.ok es, st)) = (.ok s₀, st1)
    rw [if_pos hne]
    unfold createSession
    rw [hgh]
  have hexec : executeRequest st chainId (some sid) freshId now forward probe pe
        file rprobe relapsed
      = forwardPhase st1 s₀ forward probe pe now := by
    simp only [executeRequest, hres]
  have hsid_st1 : alookup st1.sessions sid = none := by
    show alookup (hset (deleteSession st sid).sessions freshId (s₀, sessionTtl)) sid = none
    rw [alookup_hset_ne _ _ _ _ (Ne.symm hid)]
    exact alookup_filter_key_self st.sessions sid
  have hfresh_st1 : alookup st1.sessions freshId = some (s₀, sessionTtl) := by
    show alookup (hset (deleteSession st sid).sessions freshId (s₀, sessionTtl)) freshId
        = some (s₀, sessionTtl)
    exact alookup_hset_self _ _ _
  have key : ∀ st2 : Sys,
      (st2.sessions = st1.sessions ∨ ∃ s' : RpcSession, s'.id = freshId ∧ s'.chainId = chainId ∧
          st2.sessions = hset st1.sessions freshId (s', sessionTtl)) →
      getSession st2 sid = none ∧
        ∃ s', getSession st2 freshId = some s' ∧ s'.chainId = chainId ∧ s'.id = freshId := by
    rintro st2 (hss | ⟨s', hid', hcid', hss⟩)
    · refine ⟨?_, s₀, ?_, rfl, rfl⟩
      · unfold getSession
        rw [hss, hsid_st1]
        rfl
      · unfold getSession
        rw [hss, hfresh_st1]
        rfl
    · refine ⟨?_, s', ?_, hcid', hid'⟩
      · unfold getSession
        rw [hss, alookup_hset_ne _ _ _ _ (Ne.symm hid), hsid_st1]
        rfl
      · unfold getSession
        rw [hss, alookup_hset_self]
        rfl
  rw [hexec]
  apply key
  cases forward with
  | netError => exact Or.inl rfl
  | response status data =>
    by_cases h2xx : 200 ≤ status ∧ status < 300
    · right
      refine ⟨⟨freshId, u0, chainId, now, now, 0 + 1⟩, rfl, rfl, ?_⟩
      show (forwardPhase st1 s₀ (.response status data) probe pe now).2.sessions = _
      simp only [forwardPhase, if_pos h2xx]
      rfl
    · left
      show (forwardPhase st1 s₀ (.response status data) probe pe now).2.sessions = _
      simp only [forwardPhase, if_neg h2xx]
      split <;> rfl

/-- Witness for C7: the stored session is bound to chain 1, the request asks
for chain 137 which has an eligible URL `E`; after the call the old session
is gone and a fresh one for chain 137 exists. -/
theorem executeRequest_chain_switch_witness :
    getSession (executeRequest
        ⟨[(1, exConfig), (137, ⟨137, "polygon", ["E"]⟩)],
         ("E", ⟨"E", true, 0, 4, 0⟩) :: exHealth, [("s", exSession, 3600)], [], 0⟩
        137 (some "s") "fresh" 9 (.response 200 (.obj ⟨.jnum 1, .jstr "2.0", .jnull⟩))
        .netError 3 ⟨.missing⟩ (fun _ => .netError) 0).2 "s" = none ∧
    ∃ s', getSession (executeRequest
        ⟨[(1, exConfig), (137, ⟨137, "polygon", ["E"]⟩)],
         ("E", ⟨"E", true, 0, 4, 0⟩) :: exHealth, [("s", exSession, 3600)], [], 0⟩
        137 (some "s") "fresh" 9 (.response 200 (.obj ⟨.jnum 1, .jstr "2.0", .jnull⟩))
        .netError 3 ⟨.missing⟩ (fun _ => .netError) 0).2 "fresh"
      = some s' ∧ s'.chainId = 137 ∧ s'.id = "fresh" := by
  exact executeRequest_chain_switch
    ⟨[(1, exConfig), (137, ⟨137, "polygon", ["E"]⟩)],
     ("E", ⟨"E", true, 0, 4, 0⟩) :: exHealth, [("s", exSession, 3600)], [], 0⟩
    137 "s" "fresh" 9 exSession ⟨137, "polygon", ["E"]⟩
    ⟨.missing⟩ (fun _ => .netError) 0
    rfl (by decide) rfl (by decide) (by decide)
    (.response 200 (.obj ⟨.jnum 1, .jstr "2.0", .jnull⟩)) .netError 3

theorem getHealthyRpcUrl_collapse_eq (st : Sys) (chainId now : Nat) (config : RpcConfig)
    (file : RawConfigFile) (rprobe : String → TransportOutcome) (relapsed : Nat)
    (hcfg : alookup st.chains chainId = some config)
    (hempty : config.urls.filter (isEligible st.health) = []) :
    getHealthyRpcUrl st chainId now file rprobe relapsed
      = collapseFail (checkForceReload st now file rprobe relapsed) := by
  unfold getHealthyRpcUrl
  rw [hcfg]
  show (if (config.urls.filter (isEligible st.health)).isEmpty = true
      then collapseFail (checkForceReload st now file rprobe relapsed)
      else (Except.ok ((sortByRT (responseTimeOf st.health)
        (config.urls.filter (isEligible st.health))).headD ""), st)) = _
  rw [hempty]
  rfl

theorem collapseFail_fst_isError (res : Except RouterError Unit × Sys) :
    ∃ e st', collapseFail res = (.error e, st') := by
  obtain ⟨r, st'⟩ := res
  cases r with
  | ok u => exact ⟨.noHealthyRpc, st', rfl⟩
  | error e => exact ⟨e, st', rfl⟩

/-- C9 counterexample.  The claim states that whenever the retained set is
empty the call fails with `NoHealthyRpc` in either case.  With the threshold
reached and the on-disk file missing its `chains` key, the threshold-
triggered reload throws `InvalidConfig`, and that error propagates out of
`getHealthyRpcUrl` in place of `NoHealthyRpc`. -/
theorem getHealthyRpcUrl_collapse_cex :
    (getHealthyRpcUrl ⟨[(1, ⟨1, "eth", ["X"]⟩)], [], [], [99991, 99995], 0⟩ 1 100000
        ⟨.missing⟩ (fun _ => .netError) 0).1 = .error .invalidConfig ∧
    RouterError.invalidConfig ≠ RouterError.noHealthyRpc := by
  exact ⟨rfl, by decide⟩

/-- C9 (amended).  When the retained set for a present chain is empty, the
selector records exactly one entry in the sliding window (after expiring
entries older than 10 seconds).  Below the threshold of 3 entries the call
fails with `NoHealthyRpc` and only the window is updated.  At the threshold
the window is cleared and the Config Loader's reload is invoked
synchronously: if the reload succeeds the call fails with `NoHealthyRpc`
with the reload's writes to the chain configs and the health hash in place;
if the reload itself throws (missing or malformed file), the call fails with
the reload's error instead of `NoHealthyRpc`, the window remaining
cleared. -/
theorem getHealthyRpcUrl_collapse (st : Sys) (chainId now : Nat) (config : RpcConfig)
    (file : RawConfigFile) (rprobe : String → TransportOutcome) (relapsed : Nat)
    (hcfg : alookup st.chains chainId = some config)
    (hempty : config.urls.filter (isEligible st.health) = []) :
    ((st.window.filter (fun t => decide (now - t ≤ 10000))).length + 1 < 3 →
      getHealthyRpcUrl st chainId now file rprobe relapsed
        = (.error .noHealthyRpc,
           { st with
             window := st.window.filter (fun t => decide (now - t ≤ 10000)) ++ [now] })) ∧
    (3 ≤ (st.window.filter (fun t => decide (now - t ≤ 10000))).length + 1 →
      ∀ st' : Sys,
        (loadRpcConfigSys { st with window := [], reloads := st.reloads + 1 }
            file rprobe relapsed now = (.ok (), st') →
          getHealthyRpcUrl st chainId now file rprobe relapsed
            = (.error .noHealthyRpc, st')) ∧
        ∀ e, loadRpcConfigSys { st with window := [], reloads := st.reloads + 1 }
            file rprobe relapsed now = (.error e, st') →
          getHealthyRpcUrl st chainId now file rprobe relapsed = (.error e, st')) := by
  have hc := getHealthyRpcUrl_collapse_eq st chainId now config file rprobe relapsed
    hcfg hempty
  have hlen : (st.window.filter (fun t => decide (now - t ≤ 10000)) ++ [now]).length
      = (st.window.filter (fun t => decide (now - t ≤ 10000))).length + 1 := by
    simp
  constructor
  · intro h3
    rw [hc]
    show collapseFail
        (if 3 ≤ (st.window.filter (fun t => decide (now - t ≤ 10000)) ++ [now]).length
          then loadRpcConfigSys { st with window := [], reloads := st.reloads + 1 }
            file rprobe relapsed now
          else (.ok (), { st with
            window := st.window.filter (fun t => decide (now - t ≤ 10000)) ++ [now] })) = _
    rw [if_neg (by rw [hlen]; omega)]
    rfl
  · intro h3 st'
    have hcf : checkForceReload st now file rprobe relapsed
        = loadRpcConfigSys { st with window := [], reloads := st.reloads + 1 }
            file rprobe relapsed now := by
      show (if 3 ≤ (st.window.filter (fun t => decide (now - t ≤ 10000)) ++ [now]).length
          then loadRpcConfigSys { st with window := [], reloads := st.reloads + 1 }
            file rprobe relapsed now
          else (.ok (), { st with
            window := st.window.filter (fun t => decide (now - t ≤ 10000)) ++ [now] })) = _
      rw [if_pos (by rw [hlen]; omega)]
    constructor
    · intro hload
      rw [hc, hcf, hload]
      rfl
    · intro e hload
      rw [hc, hcf, hload]
      rfl

/-- Witness for the amended C9: with two recent entries the third collapse
reaches the threshold and the forced reload of a file missing `chains`
throws `InvalidConfig` — the window is cleared, the invocation is counted,
and the call surfaces `InvalidConfig`; with an empty window the collapse
stays below the threshold and fails with `NoHealthyRpc`, recording the one
entry. -/
theorem getHealthyRpcUrl_collapse_witness :
    getHealthyRpcUrl ⟨[(1, ⟨1, "eth", ["X"]⟩)], [], [], [99991, 99995], 4⟩ 1 100000
        ⟨.missing⟩ (fun _ => .netError) 0
      = (.error .invalidConfig, ⟨[(1, ⟨1, "eth", ["X"]⟩)], [], [], [], 4 + 1⟩) ∧
    getHealthyRpcUrl ⟨[(1, ⟨1, "eth", ["X"]⟩)], [], [], [], 4⟩ 1 100000
        ⟨.missing⟩ (fun _ => .netError) 0
      = (.error .noHealthyRpc, ⟨[(1, ⟨1, "eth", ["X"]⟩)], [], [], [100000], 4⟩) := by
  constructor
  · exact ((getHealthyRpcUrl_collapse ⟨[(1, ⟨1, "eth", ["X"]⟩)], [], [], [99991, 99995], 4⟩
      1 100000 ⟨1, "eth", ["X"]⟩ ⟨.missing⟩ (fun _ => .netError) 0 rfl (by decide)).2
      (by decide) ⟨[(1, ⟨1, "eth", ["X"]⟩)], [], [], [], 4 + 1⟩).2 .invalidConfig rfl
  · exact (getHealthyRpcUrl_collapse ⟨[(1, ⟨1, "eth", ["X"]⟩)], [], [], [], 4⟩
      1 100000 ⟨1, "eth", ["X"]⟩ ⟨.missing⟩ (fun _ => .netError) 0 rfl (by decide)).1
      (by decide)

theorem getChainStats_totalSessions (st : Sys) (chainId : Nat) (config : RpcConfig)
    (hc : alookup st.chains chainId = some config) :
    ∃ stats, getChainStats st chainId = .ok stats ∧
      stats.totalSessions
        = (st.sessions.filter (fun e => decide (e.2.1.chainId = chainId))).length := by
  unfold getChainStats
  rw [hc]
  exact ⟨_, rfl, rfl⟩

theorem createSession_chainNotFound (st : Sys) (chainId : Nat) (freshId : String) (now : Nat)
    (file : RawConfigFile) (rprobe : String → TransportOutcome) (relapsed : Nat)
    (hc : alookup st.chains chainId = none) :
    createSession st chainId freshId now file rprobe relapsed
      = (.error .chainNotFound, st) := by
  unfold createSession getHealthyRpcUrl
  rw [hc]

theorem createSession_collapse (st : Sys) (chainId : Nat) (freshId : String) (now : Nat)
    (config : RpcConfig) (file : RawConfigFile) (rprobe : String → TransportOutcome)
    (relapsed : Nat) (hc : alookup st.chains chainId = some config)
    (hempty : config.urls.filter (isEligible st.health) = []) :
    ∃ e st', createSession st chainId freshId now file rprobe relapsed
      = (.error e, st') := by
  obtain ⟨e, st', hcf⟩ :=
    collapseFail_fst_isError (checkForceReload st now file rprobe relapsed)
  refine ⟨e, st', ?_⟩
  unfold createSession
  rw [getHealthyRpcUrl_collapse_eq st chainId now config file rprobe relapsed hc hempty, hcf]

theorem createSession_ok (st : Sys) (chainId now : Nat) (config : RpcConfig) (freshId : String)
    (file : RawConfigFile) (rprobe : String → TransportOutcome) (relapsed : Nat)
    (hc : alookup st.chains chainId = some config)
    (hne : config.urls.filter (isEligible st.health) ≠ []) :
    createSession st chainId freshId now file rprobe relapsed
      = (.ok (⟨freshId, (sortByRT (responseTimeOf st.health)
            (config.urls.filter (isEligible st.health))).headD "", chainId, now, now, 0⟩ :
            RpcSession),
         ⟨st.chains, st.health,
          hset st.sessions freshId
            (⟨freshId, (sortByRT (responseTimeOf st.health)
              (config.urls.filter (isEligible st.health))).headD "", chainId, now, now, 0⟩,
             sessionTtl),
          st.window, st.reloads⟩) := by
  unfold createSession
  rw [getHealthyRpcUrl_ok st chainId now config file rprobe relapsed hc hne]

/-- C10.  `getEndpoint(chainId)` is not a pure read: every successful call
persists a brand-new session record under the generated (and then discarded)
id with TTL `sessionTtl`, returning only the selected URL; the chain-stats
projection's `totalSessions` for that chain consequently grows by one. -/
theorem getEndpoint_creates_session (st : Sys) (chainId : Nat) (freshId : String) (now : Nat)
    (url : String) (file : RawConfigFile) (rprobe : String → TransportOutcome) (relapsed : Nat)
    (hfresh : alookup st.sessions freshId = none)
    (hok : (getEndpoint st chainId freshId now file rprobe relapsed).1 = .ok url) :
    ∃ s st', getEndpoint st chainId freshId now file rprobe relapsed = (.ok url, st') ∧
      alookup st'.sessions freshId = some (s, sessionTtl) ∧
      s.id = freshId ∧ s.chainId = chainId ∧ s.url = url ∧
      ∃ stats stats', getChainStats st chainId = .ok stats ∧
        getChainStats st' chainId = .ok stats' ∧
        stats'.totalSessions = stats.totalSessions + 1 := by
  cases hc : alookup st.chains chainId with
  | none =>
    have hend : getEndpoint st chainId freshId now file rprobe relapsed
        = (.error .chainNotFound, st) := by
      unfold getEndpoint
      rw [createSession_chainNotFound st chainId freshId now file rprobe relapsed hc]
    rw [hend] at hok
    exact absurd hok (by simp)
  | some config =>
    cases hel : config.urls.filter (isEligible st.health) with
    | nil =>
      obtain ⟨e, st2, hcs⟩ := createSession_collapse st chainId freshId now config
        file rprobe relapsed hc hel
      have hend : getEndpoint st chainId freshId now file rprobe relapsed
          = (.error e, st2) := by
        unfold getEndpoint
        rw [hcs]
      rw [hend] at hok
      exact absurd hok (by simp)
    | cons a b =>
      have hne' : config.urls.filter (isEligible st.health) ≠ [] := by
        rw [hel]
        simp
      have hcs := createSession_ok st chainId now config freshId file rprobe relapsed hc hne'
      generalize hu : (sortByRT (responseTimeOf st.health)
          (config.urls.filter (isEligible st.health))).headD "" = u0 at hcs
      have hend : getEndpoint st chainId freshId now file rprobe relapsed
          = (.ok u0,
             ⟨st.chains, st.health,
              hset st.sessions freshId (⟨freshId, u0, chainId, now, now, 0⟩, sessionTtl),
              st.window, st.reloads⟩) := by
        unfold getEndpoint
        rw [hcs]
      rw [hend] at hok
      replace hok : Except.ok u0 = Except.ok url := hok
      obtain rfl : url = u0 := (Except.ok.inj hok).symm
      refine ⟨⟨freshId, url, chainId, now, now, 0⟩, _, hend,
        alookup_hset_self _ _ _, rfl, rfl, rfl, ?_⟩
      obtain ⟨stats, hstats, hts⟩ := getChainStats_totalSessions st chainId config hc
      obtain ⟨stats', hstats', hts'⟩ := getChainStats_totalSessions
        ⟨st.chains, st.health,
         hset st.sessions freshId (⟨freshId, url, chainId, now, now, 0⟩, sessionTtl),
         st.window, st.reloads⟩ chainId config hc
      refine ⟨stats, stats', hstats, hstats', ?_⟩
      rw [hts, hts']
      show ((hset st.sessions freshId
          ((⟨freshId, url, chainId, now, now, 0⟩ : RpcSession), sessionTtl)).filter
          (fun e => decide (e.2.1.chainId = chainId))).length = _
      rw [hset_of_alookup_none _ _ _ hfresh, List.filter_append]
      simp

/-- Witness for C10: on `exSys` (no stored sessions) a `getEndpoint` call for
chain 1 returns `A` and leaves one persisted session behind, raising
`totalSessions` from 0 to 1. -/
theorem getEndpoint_creates_session_witness :
    ∃ s st', getEndpoint exSys 1 "fresh" 0 ⟨.missing⟩ (fun _ => .netError) 0
        = (.ok "A", st') ∧
      alookup st'.sessions "fresh" = some (s, sessionTtl) ∧
      s.id = "fresh" ∧ s.chainId = 1 ∧ s.url = "A" ∧
      ∃ stats stats', getChainStats exSys 1 = .ok stats ∧
        getChainStats st' 1 = .ok stats' ∧
        stats'.totalSessions = stats.totalSessions + 1 := by
  exact getEndpoint_creates_session exSys 1 "fresh" 0 "A"
    ⟨.missing⟩ (fun _ => .netError) 0 rfl rfl

/-- C4 counterexample.  The claim states the probes are triggered after the
KV transaction has committed.  Loading a one-chain file over an empty store
produces the trace `[probe "u", commit]`: the probe event strictly precedes
the commit, so the trace violates the claimed ordering. -/
theorem loadRpcConfig_probe_before_commit_cex :
    (loadRpcConfig ⟨[], []⟩ ⟨.arr [⟨some 1, some "eth", some ["u"]⟩]⟩
        (fun _ => .netError) 5 100).events = [.probe "u", .commit] ∧
    ¬ probesAfterCommit [.probe "u", .commit] := by
  constructor
  · rfl
  · decide

/-- C4 (amended).  In every successful `loadRpcConfig` run the probe
invocations lie outside the queued transaction but are triggered *before* the
commit, not after it: the trace is the probe events — one per URL occurrence
of the file's chains, covering every URL of the new file — followed by the
single commit. -/
theorem loadRpcConfig_probes_precede_commit (st : LoadStore) (file : RawConfigFile)
    (probe : String → TransportOutcome) (elapsed now : Nat)
    (hok : (loadRpcConfig st file probe elapsed now).result = .ok ()) :
    ∃ chains : List RawChain, file.chains = .arr chains ∧
      (loadRpcConfig st file probe elapsed now).events
        = (fileUrls chains).map LoadEvent.probe ++ [.commit] ∧
      ∀ c ∈ chains, ∀ u ∈ c.urls?.getD [],
        LoadEvent.probe u ∈ (fileUrls chains).map LoadEvent.probe := by
  cases hc : file.chains with
  | missing => simp [loadRpcConfig, hc] at hok
  | notArray => simp [loadRpcConfig, hc] at hok
  | arr chains =>
    by_cases hbad : chains.any (fun c => c.urls?.isNone)
    · simp [loadRpcConfig, hc, hbad] at hok
    · refine ⟨chains, rfl, ?_, ?_⟩
      · simp [loadRpcConfig, hc, hbad]
      · intro c hcmem u hu
        apply List.mem_map_of_mem
        unfold fileUrls
        exact List.mem_flatMap.mpr ⟨c, hcmem, hu⟩

/-- Witness for the amended C4 at a concrete one-chain file. -/
theorem loadRpcConfig_probes_precede_commit_witness :
    ∃ chains : List RawChain,
      (⟨.arr [⟨some 1, some "eth", some ["u"]⟩]⟩ : RawConfigFile).chains = .arr chains ∧
      (loadRpcConfig ⟨[], []⟩ ⟨.arr [⟨some 1, some "eth", some ["u"]⟩]⟩
          (fun _ => .netError) 5 100).events
        = (fileUrls chains).map LoadEvent.probe ++ [.commit] ∧
      ∀ c ∈ chains, ∀ u ∈ c.urls?.getD [],
        LoadEvent.probe u ∈ (fileUrls chains).map LoadEvent.probe :=
  loadRpcConfig_probes_precede_commit ⟨[], []⟩ ⟨.arr [⟨some 1, some "eth", some ["u"]⟩]⟩
    (fun _ => .netError) 5 100 rfl

/-- C5 counterexample.  The claim states a file any of whose chain elements
is missing `name` is rejected with `InvalidConfig`.  The code only checks
that `chains` exists and is an array: a file whose single element has no
`name` loads successfully. -/
theorem loadRpcConfig_missing_name_accepted_cex :
    (⟨some 1, none, some ["u"]⟩ : RawChain).name? = none ∧
    (loadRpcConfig ⟨[], []⟩ ⟨.arr [⟨some 1, none, some ["u"]⟩]⟩
        (fun _ => .netError) 5 100).result = .ok () := by
  exact ⟨rfl, rfl⟩

/-- C5 (amended).  `loadRpcConfig` rejects with `InvalidConfig` exactly the
files whose `chains` key is missing (or otherwise falsy) or not an array;
elements missing `chainId` or `name` are accepted as-is, and an element
missing `urls` fails with a runtime type error (not `InvalidConfig`).  On
every failing outcome the store is left exactly as it was and no redis write
or probe occurs. -/
theorem loadRpcConfig_rejections (st : LoadStore) (file : RawConfigFile)
    (probe : String → TransportOutcome) (elapsed now : Nat) :
    ((loadRpcConfig st file probe elapsed now).result = .error .invalidConfig ↔
      file.chains = .missing ∨ file.chains = .notArray) ∧
    (∀ chains, file.chains = .arr chains →
      ((loadRpcConfig st file probe elapsed now).result = .error .typeError ↔
        chains.any (fun c => c.urls?.isNone) = true)) ∧
    (∀ e, (loadRpcConfig st file probe elapsed now).result = .error e →
      (loadRpcConfig st file probe elapsed now).store = st ∧
      (loadRpcConfig st file probe elapsed now).events = []) := by
  cases hc : file.chains with
  | missing => simp [loadRpcConfig, hc]
  | notArray => simp [loadRpcConfig, hc]
  | arr chains =>
    by_cases hbad : chains.any (fun c => c.urls?.isNone)
    · simp [loadRpcConfig, hc, hbad]
      simpa using hbad
    · simp [loadRpcConfig, hc, hbad]
      simpa using hbad

/-- Witness for the amended C5: a file with `chains` missing is rejected with
`InvalidConfig` and the prior store (one health record) is untouched, with no
events. -/
theorem loadRpcConfig_rejections_witness :
    (loadRpcConfig ⟨[], [("u", ⟨"u", true, 0, 5, 0⟩)]⟩ ⟨.missing⟩
        (fun _ => .netError) 5 100).result = .error .invalidConfig ∧
    (loadRpcConfig ⟨[], [("u", ⟨"u", true, 0, 5, 0⟩)]⟩ ⟨.missing⟩
        (fun _ => .netError) 5 100).store = ⟨[], [("u", ⟨"u", true, 0, 5, 0⟩)]⟩ ∧
    (loadRpcConfig ⟨[], [("u", ⟨"u", true, 0, 5, 0⟩)]⟩ ⟨.missing⟩
        (fun _ => .netError) 5 100).events = [] := by
  have h1 := (loadRpcConfig_rejections ⟨[], [("u", ⟨"u", true, 0, 5, 0⟩)]⟩ ⟨.missing⟩
    (fun _ => .netError) 5 100).1.mpr (Or.inl rfl)
  have h2 := (loadRpcConfig_rejections ⟨[], [("u", ⟨"u", true, 0, 5, 0⟩)]⟩ ⟨.missing⟩
    (fun _ => .netError) 5 100).2.2 .invalidConfig h1
  exact ⟨h1, h2.1, h2.2⟩

end RpcRouter
